import Mathlib

/-!
Shallow embedding of the SvennProcessorBE job scheduling and execution core:
`app/jobs/scheduler.py`, `app/jobs/common/base_processor.py`, and
`app/jobs/common/database_manager.py`, together with the data model of
`app/models.py`.  Stateful Python code is modelled by explicit state
passing; a function that can both mutate persistent state and raise is
modelled as returning the new state together with an `Option`/`Except`
error component (Python's raise-after-partial-commit keeps the committed
state, so the state is returned even on the error path).
-/

namespace Svenn

/-- Errors raised by the embedded code.  Python exception classes are
collapsed to the constructors that the control flow distinguishes. -/
inductive Err where
  | scriptNotFound
  | invalidFilename
  | fileNotFound
  | invalidCron
  | jobNotFound
  | envNotFound
  | dbInitError
  | importError
  | noMain
  | scriptError
  | typeError
  | valueError
  deriving Repr, DecidableEq

/-- Split a character list at every separator character, keeping empty
pieces (the worker behind both Python split flavours used here). -/
def splitAux (p : Char → Bool) : List Char → List Char → List (List Char)
  | [], acc => [acc.reverse]
  | c :: cs, acc =>
    if p c then acc.reverse :: splitAux p cs []
    else splitAux p cs (c :: acc)

/-- Python's `str.split()` with no argument: split on whitespace,
dropping empty pieces (hence also runs of whitespace and leading/trailing
whitespace). -/
def pySplitWhitespace (s : String) : List String :=
  ((splitAux Char.isWhitespace s.data []).map (fun cs => String.mk cs)).filter
    (fun p => p ≠ "")

/-- Python's `str.split(sep)` with a one-character separator (as in
`filename.split('/')`): empty pieces are kept. -/
def pySplitOn (sep : Char) (s : String) : List String :=
  (splitAux (fun c => c == sep) s.data []).map (fun cs => String.mk cs)

/-- The five cron fields APScheduler receives
(`minute hour day month day_of_week`). -/
structure CronFields where
  minute : String
  hour : String
  day : String
  month : String
  day_of_week : String
  deriving Repr, DecidableEq

/-- `parse_cron_expression` from `app/jobs/scheduler.py`: split the
expression on whitespace; exactly five parts become the APScheduler
kwargs, anything else raises `ValueError`. -/
def parse_cron_expression (expression : String) : Except Err CronFields :=
  match pySplitWhitespace expression with
  | [m, h, d, mo, dow] => .ok ⟨m, h, d, mo, dow⟩
  | _ => .error .invalidCron

/-! ### Data model (`app/models.py`) -/

/-- `Script` row: primary key and the `warehouse/script.py` filename. -/
structure Script where
  id : Nat
  filename : String
  deriving Repr, DecidableEq

/-- `Job` row: internal primary key `id`, external APScheduler trigger id
`job_id`, the referenced script, the stored cron expression and the
enabled flag. -/
structure Job where
  id : Nat
  job_id : String
  script_id : Nat
  cron_expression : String
  enabled : Bool
  deriving Repr, DecidableEq

/-- `JobExecution` row: status is one of `"running"`, `"completed"`,
`"failed"`; times are abstract instants (`Nat`). -/
structure JobExecution where
  id : Nat
  job_id : Nat
  start_time : Nat
  end_time : Option Nat
  status : String
  error_message : Option String
  deriving Repr, DecidableEq

/-- A live APScheduler trigger: its string id, the single argument the
bound function is called with when the trigger fires (`args=[...]` always
has exactly one element in this codebase), its cron schedule and whether
it is paused. -/
structure SchedJob where
  id : String
  arg : Nat
  cron : CronFields
  paused : Bool
  deriving Repr, DecidableEq

/-- The state the scheduler module acts on: the persistent tables, the
in-memory APScheduler registry, and autoincrement counters for the two
tables whose rows the module creates. -/
structure SchedState where
  scripts : List Script
  jobs : List Job
  executions : List JobExecution
  registry : List SchedJob
  nextJobRowId : Nat
  nextExecId : Nat
  deriving Repr, DecidableEq

/-! ### Scheduler operations (`app/jobs/scheduler.py`) -/

/-- `Job.query.get` / `Script.query.get`: point lookup by primary key. -/
def SchedState.findScript (st : SchedState) (script_id : Nat) : Option Script :=
  st.scripts.find? (fun s => s.id == script_id)

def SchedState.findJob (st : SchedState) (job_id : Nat) : Option Job :=
  st.jobs.find? (fun j => j.id == job_id)

/-- Lookup of a live trigger in the APScheduler registry by its string id
(`JobLookupError` corresponds to `none`). -/
def SchedState.findTrigger (st : SchedState) (trig_id : String) : Option SchedJob :=
  st.registry.find? (fun t => t.id == trig_id)

/-- `add_job(script_id, cron_expression)`.  The filesystem is a set of
`warehouse/script.py` paths that exist under `warehouse_scripts`.  On any
raise nothing was persisted and no trigger registered (the cron kwargs
are evaluated before `scheduler.add_job` is called), so the state is
returned unchanged on the error path. -/
def add_job (st : SchedState) (fs : List String) (script_id : Nat)
    (cron_expression : String) : Except Err Job × SchedState :=
  match st.findScript script_id with
  | none => (.error .scriptNotFound, st)
  | some script =>
    match pySplitOn '/' script.filename with
    | [warehouse, script_file] =>
      if (warehouse ++ "/" ++ script_file) ∈ fs then
        match parse_cron_expression cron_expression with
        | .error e => (.error e, st)
        | .ok cron =>
          let trig : SchedJob :=
            { id := "script_" ++ toString script_id
              arg := script_id
              cron := cron
              paused := false }
          let db_job : Job :=
            { id := st.nextJobRowId
              job_id := trig.id
              script_id := script_id
              cron_expression := cron_expression
              enabled := true }
          (.ok db_job,
            { st with
              registry := st.registry ++ [trig]
              jobs := st.jobs ++ [db_job]
              nextJobRowId := st.nextJobRowId + 1 })
      else (.error .fileNotFound, st)
    | _ => (.error .invalidFilename, st)

/-- `remove_job(job_id)`: look up the row; absent row raises `ValueError`
("Job not found").  `scheduler.remove_job` raising `JobLookupError` for a
trigger missing from the registry is caught and ignored; the row is then
deleted and committed. -/
def remove_job (st : SchedState) (job_id : Nat) : Except Err Unit × SchedState :=
  match st.findJob job_id with
  | none => (.error .jobNotFound, st)
  | some job =>
    let registry' := st.registry.filter (fun t => t.id != job.job_id)
    let jobs' := st.jobs.filter (fun j => j.id != job.id)
    (.ok (), { st with registry := registry', jobs := jobs' })

/-- Set the `enabled` column of the row with primary key `k`. -/
def setEnabled (jobs : List Job) (k : Nat) (b : Bool) : List Job :=
  jobs.map (fun j => if j.id == k then { j with enabled := b } else j)

/-- `toggle_job(job_id)`: flip `enabled`; when newly enabled resume the
trigger, recreating it from the stored cron expression if it is missing
from the registry (`args=[job_id]`); when newly disabled pause the
trigger, tolerating its absence; commit and return the new flag.  A raise
inside (e.g. the stored cron fails to parse during recreation) rolls the
session back, so the state is returned unchanged then. -/
def toggle_job (st : SchedState) (job_id : Nat) : Except Err Bool × SchedState :=
  match st.findJob job_id with
  | none => (.error .jobNotFound, st)
  | some job =>
    let newEnabled := !job.enabled
    if newEnabled then
      match st.findTrigger job.job_id with
      | some _ =>
        let registry' := st.registry.map
          (fun t => if t.id == job.job_id then { t with paused := false } else t)
        (.ok true,
          { st with registry := registry', jobs := setEnabled st.jobs job_id true })
      | none =>
        match parse_cron_expression job.cron_expression with
        | .error e => (.error e, st)
        | .ok cron =>
          let trig : SchedJob :=
            { id := job.job_id, arg := job_id, cron := cron, paused := false }
          (.ok true,
            { st with
              registry := st.registry ++ [trig]
              jobs := setEnabled st.jobs job_id true })
    else
      let registry' := st.registry.map
        (fun t => if t.id == job.job_id then { t with paused := true } else t)
      (.ok false,
        { st with registry := registry', jobs := setEnabled st.jobs job_id false })

/-- The failure points of `execute_script` that lie outside the scheduler
state: existence of the root `.env` file, `DatabaseManager` construction,
dynamic import of the warehouse script (`import_warehouse_script`),
presence of a `main()` attribute on the module, and whether `main()`
itself runs to completion.  Each flag is an oracle for whether that step
succeeds. -/
structure ExecEnv where
  envExists : Bool
  dbInitOk : Bool
  importOk : Bool
  hasMain : Bool
  mainOk : Bool
  deriving Repr, DecidableEq

/-- `str(e)` for the exceptions that can escape the body of
`execute_script`: each exception carries a non-empty human-readable
message. -/
def errMsg : Err → String
  | .scriptNotFound => "Script not found"
  | .invalidFilename => "Invalid script filename format"
  | .fileNotFound => "Script file not found"
  | .invalidCron => "Invalid cron expression"
  | .jobNotFound => "Job not found"
  | .envNotFound => "Environment file not found"
  | .dbInitError => "Failed to initialize database configurations"
  | .importError => "Failed to import script"
  | .noMain => "Script has no main() function"
  | .scriptError => "error inside main()"
  | .typeError => "TypeError"
  | .valueError => "ValueError"

/-- The body of `execute_script` after the execution record exists: the
first failing step raises its exception. -/
def runScriptBody (env : ExecEnv) : Except Err Unit :=
  if !env.envExists then .error .envNotFound
  else if !env.dbInitOk then .error .dbInitError
  else if !env.importOk then .error .importError
  else if !env.hasMain then .error .noMain
  else if !env.mainOk then .error .scriptError
  else .ok ()

/-- In-place update of the execution row with primary key `k`. -/
def updateExec (execs : List JobExecution) (k : Nat)
    (f : JobExecution → JobExecution) : List JobExecution :=
  execs.map (fun r => if r.id == k then f r else r)

/-- `execute_script(job_id)`: look up the job and its script, parse the
`warehouse/script.py` filename (all before any record exists), then
create and commit a `JobExecution` with status `running`; run the body;
on success the `try` block sets status `completed`, on a raise the
`except` block sets status `failed` with a non-empty error message and
re-raises; the `finally` block sets `end_time` and commits.  `now` is the
record's start instant and `endNow` the instant the `finally` block runs. -/
def execute_script (st : SchedState) (env : ExecEnv) (now endNow : Nat)
    (job_id : Nat) : Option Err × SchedState :=
  match st.findJob job_id with
  | none => (some .jobNotFound, st)
  | some job =>
    match st.findScript job.script_id with
    | none => (some .scriptNotFound, st)
    | some script =>
      match pySplitOn '/' script.filename with
      | [_, _] =>
        let execId := st.nextExecId
        let execRec : JobExecution :=
          { id := execId
            job_id := job.id
            start_time := now
            end_time := none
            status := "running"
            error_message := none }
        let st1 := { st with
          executions := st.executions ++ [execRec]
          nextExecId := execId + 1 }
        match runScriptBody env with
        | .ok () =>
          (none,
            { st1 with executions := (updateExec st1.executions execId
                (fun r => { r with status := "completed", end_time := some endNow })) })
        | .error e =>
          (some e,
            { st1 with executions := (updateExec st1.executions execId
                (fun r => { r with
                  status := "failed"
                  error_message := some ("Script execution failed: " ++ errMsg e)
                  end_time := some endNow })) })
      | _ => (some .invalidFilename, st)

/-- Python truthiness of the optional `cron_expression` argument of
`update_job`: `None` and `""` are both falsy. -/
def truthy : Option String → Bool
  | none => false
  | some s => !(s == "")

/-- `update_job(job_id, cron_expression=None)`: absent row raises; a
truthy expression is validated, the live trigger rescheduled (recreated
with `args=[job_id]` when missing from the registry) and the new
expression persisted; a falsy expression skips all of that and the
current row is returned after a no-op commit. -/
def update_job (st : SchedState) (job_id : Nat) (cron_expression : Option String) :
    Except Err Job × SchedState :=
  match st.findJob job_id with
  | none => (.error .jobNotFound, st)
  | some job =>
    if truthy cron_expression then
      match parse_cron_expression (cron_expression.getD "") with
      | .error e => (.error e, st)
      | .ok cron =>
        let registry' :=
          match st.findTrigger job.job_id with
          | some _ => st.registry.map
              (fun t => if t.id == job.job_id then { t with cron := cron } else t)
          | none => st.registry ++
              [{ id := job.job_id, arg := job_id, cron := cron, paused := false }]
        let jobs' := st.jobs.map
          (fun j => if j.id == job_id
                    then { j with cron_expression := cron_expression.getD "" }
                    else j)
        (.ok { job with cron_expression := cron_expression.getD "" },
          { st with registry := registry', jobs := jobs' })
    else
      (.ok job, st)

/-! ### Batch Processing Framework (`app/jobs/common/base_processor.py`)

`BaseProcessor` is abstract: `process_record` and `_fetch_raw_data` are
implemented by child classes.  They are modelled as parameters: records
have an arbitrary type `α`, `procOk r` says whether `process_record r`
returns normally, and the fetch result is passed in as an
`Except Err (List α)` (error = the query raised). -/

/-- The mutable counters of a `BaseProcessor` instance.  `__init__` sets
`processed_count = 0`, `error_count = 0`, `start_time = None`. -/
structure ProcState where
  batch_size : Nat
  processed_count : Nat
  error_count : Nat
  start_time : Option Nat
  deriving Repr, DecidableEq

/-- `BaseProcessor.__init__(db_manager, batch_size=100)`. -/
def ProcState.init (batch_size : Nat := 100) : ProcState :=
  { batch_size := batch_size
    processed_count := 0
    error_count := 0
    start_time := none }

/-- `BaseProcessor.process_batch`: for each record, call `process_record`
inside a per-record `try`; a normal return increments `processed_count`,
a raise is logged and increments `error_count`; the loop never aborts. -/
def process_batch (procOk : α → Bool) (st : ProcState) (batch : List α) : ProcState :=
  batch.foldl
    (fun s r =>
      if procOk r then { s with processed_count := s.processed_count + 1 }
      else { s with error_count := s.error_count + 1 })
    st

/-- Recursion worker for `toChunks`, structural on a fuel bound that the
caller sets to the list length (one slice consumes at least one element
when `n ≠ 0`, so the fuel never runs out). -/
def chunksAux (n : Nat) : Nat → List α → List (List α)
  | _, [] => []
  | 0, _ :: _ => []
  | fuel + 1, x :: xs => (x :: xs).take n :: chunksAux n fuel ((x :: xs).drop n)

/-- The batches visited by `for i in range(0, len(raw_data), batch_size)`
with `batch = raw_data[i:i + batch_size]`: successive slices of length
`n`, in source order.  (`range` with step 0 raises in Python; the caller
`process_all` models that case separately, so `n = 0` here returns `[]`.) -/
def toChunks (n : Nat) (l : List α) : List (List α) :=
  if n = 0 then [] else chunksAux n l.length l

/-- `BaseProcessor.process_all`: set `start_time = now`; fetch (a raise
propagates); an empty result logs a warning and returns normally;
otherwise process the chunks in order with `process_batch` (whose
per-record handler means it does not raise) and log the summary.  With
`batch_size = 0` and a non-empty fetch, `range(0, len, 0)` raises
`ValueError`, which the outer handler re-raises. -/
def process_all (procOk : α → Bool) (fetch : Except Err (List α)) (now : Nat)
    (st : ProcState) : ProcState × Option Err :=
  let st := { st with start_time := some now }
  match fetch with
  | .error e => (st, some e)
  | .ok raw =>
    if raw.isEmpty then (st, none)
    else if st.batch_size = 0 then (st, some .valueError)
    else
      ((toChunks st.batch_size raw).foldl (fun s b => process_batch procOk s b) st,
        none)

/-! ### Connection Manager (`app/jobs/common/database_manager.py`) -/

/-- What `DatabaseManager.get_cursor` does to the connection on scope
exit. -/
inductive ConnAction where
  | commit
  | rollback
  deriving Repr, DecidableEq

/-- `DatabaseManager.get_cursor(db_name)` as a function of the outcome of
the `with` body: a normal body commits the connection; a raising body
rolls it back and re-raises.  The caller never sees the decision. -/
def get_cursor (body : Except ε α) : Except ε α × ConnAction :=
  match body with
  | .ok a => (.ok a, .commit)
  | .error _ => (body, .rollback)

/-- One store's connection parameters as `_initialize_configs` reads them
from the environment (`password` is read but, unlike the others, never
validated). -/
structure DbConfig where
  host : Option String
  user : Option String
  password : Option String
  database : Option String
  port : Nat
  deriving Repr, DecidableEq

/-- Python `int(x)` applied to `os.getenv(...)`: `int(None)` raises
`TypeError`; a non-numeric string raises `ValueError` (numeric parsing
modelled by `String.toNat?`). -/
def pyInt (s : Option String) : Except Err Nat :=
  match s with
  | none => .error .typeError
  | some v =>
    match v.toNat? with
    | some n => .ok n
    | none => .error .valueError

/-- Python falsiness of an optional string config value
(`not config.get(field)`): `None` and `""` are falsy. -/
def isFalsyStr (s : Option String) : Bool :=
  s.getD "" == ""

def required_fields : List String := ["host", "user", "database", "port"]

/-- Whether one required field of a store config is falsy
(`not config.get(field)`): the string fields are falsy when absent or
empty; the `port` entry is an `int`, falsy exactly when 0. -/
def field_missing (c : DbConfig) (f : String) : Bool :=
  if f == "host" then isFalsyStr c.host
  else if f == "user" then isFalsyStr c.user
  else if f == "database" then isFalsyStr c.database
  else c.port == 0

/-- `_validate_configs`'s per-store missing-field computation:
`[field for field in required_fields if not config.get(field)]`. -/
def missing_fields (c : DbConfig) : List String :=
  required_fields.filter (field_missing c)

/-- `_validate_configs`: for each store in order (`raw_data` first),
raise `ValueError` if any required field is falsy. -/
def validate_configs (raw svenn : DbConfig) : Except Err Unit :=
  if !(missing_fields raw).isEmpty then .error .valueError
  else if !(missing_fields svenn).isEmpty then .error .valueError
  else .ok ()

/-- The `'raw_data'` entry of `self.db_configs`, as read from the
environment (the port value was already parsed by `int(...)`). -/
def raw_config (env : String → Option String) (port : Nat) : DbConfig :=
  { host := env "RAW_DB_HOST"
    user := env "RAW_DB_USER"
    password := env "RAW_DB_PASSWORD"
    database := env "RAW_DB_NAME"
    port := port }

/-- The `'svenn_products'` entry of `self.db_configs`. -/
def svenn_config (env : String → Option String) (port : Nat) : DbConfig :=
  { host := env "SVENN_DB_HOST"
    user := env "SVENN_DB_USER"
    password := env "SVENN_DB_PASSWORD"
    database := env "SVENN_DB_NAME"
    port := port }

/-- `_initialize_configs` followed by `_validate_configs`, as run by
`DatabaseManager.__init__`: build the two store configs (each `port`
value is `int(os.getenv(...))`, evaluated eagerly while building the
dict literal, raw store first), then validate.  Any raise propagates out
of construction. -/
def initialize_configs (env : String → Option String) :
    Except Err (DbConfig × DbConfig) :=
  match pyInt (env "RAW_DB_PORT") with
  | .error e => .error e
  | .ok rawPort =>
    match pyInt (env "SVENN_DB_PORT") with
    | .error e => .error e
    | .ok svennPort =>
      match validate_configs (raw_config env rawPort) (svenn_config env svennPort) with
      | .error e => .error e
      | .ok () => .ok (raw_config env rawPort, svenn_config env svennPort)

/-- The environment variables whose values all four validated fields of
the two stores come from. -/
def requiredEnvVars : List String :=
  ["RAW_DB_HOST", "RAW_DB_USER", "RAW_DB_NAME", "RAW_DB_PORT",
   "SVENN_DB_HOST", "SVENN_DB_USER", "SVENN_DB_NAME", "SVENN_DB_PORT"]

/-! ### Helper lemmas -/

theorem parse_cron_ok_of_len5 {expression : String}
    (h : (pySplitWhitespace expression).length = 5) :
    ∃ c, parse_cron_expression expression = .ok c := by
  unfold parse_cron_expression
  rcases hs : pySplitWhitespace expression with _ | ⟨a, _ | ⟨b, _ | ⟨c, _ | ⟨d, _ | ⟨e, _ | ⟨f, t⟩⟩⟩⟩⟩⟩ <;>
    simp_all

theorem parse_cron_error_of_len_ne5 {expression : String}
    (h : (pySplitWhitespace expression).length ≠ 5) :
    parse_cron_expression expression = .error .invalidCron := by
  unfold parse_cron_expression
  rcases hs : pySplitWhitespace expression with _ | ⟨a, _ | ⟨b, _ | ⟨c, _ | ⟨d, _ | ⟨e, _ | ⟨f, t⟩⟩⟩⟩⟩⟩ <;>
    simp_all

theorem process_batch_cons (p : α → Bool) (st : ProcState) (x : α) (xs : List α) :
    process_batch p st (x :: xs)
      = process_batch p
          (if p x then { st with processed_count := st.processed_count + 1 }
           else { st with error_count := st.error_count + 1 }) xs := rfl

theorem process_batch_processed (p : α → Bool) :
    ∀ (l : List α) (st : ProcState),
      (process_batch p st l).processed_count = st.processed_count + l.countP p := by
  intro l
  induction l with
  | nil => intro st; simp [process_batch]
  | cons x xs ih =>
    intro st
    rw [process_batch_cons]
    by_cases hx : p x <;> simp [hx, ih, List.countP_cons] <;> omega

theorem process_batch_error (p : α → Bool) :
    ∀ (l : List α) (st : ProcState),
      (process_batch p st l).error_count = st.error_count + l.countP (fun r => !p r) := by
  intro l
  induction l with
  | nil => intro st; simp [process_batch]
  | cons x xs ih =>
    intro st
    rw [process_batch_cons]
    by_cases hx : p x <;> simp [hx, ih, List.countP_cons] <;> omega

theorem process_batch_batch_size (p : α → Bool) :
    ∀ (l : List α) (st : ProcState),
      (process_batch p st l).batch_size = st.batch_size := by
  intro l
  induction l with
  | nil => intro st; simp [process_batch]
  | cons x xs ih =>
    intro st
    rw [process_batch_cons]
    by_cases hx : p x <;> simp [hx, ih]

theorem process_batch_start_time (p : α → Bool) :
    ∀ (l : List α) (st : ProcState),
      (process_batch p st l).start_time = st.start_time := by
  intro l
  induction l with
  | nil => intro st; simp [process_batch]
  | cons x xs ih =>
    intro st
    rw [process_batch_cons]
    by_cases hx : p x <;> simp [hx, ih]

theorem process_batch_append (p : α → Bool) (st : ProcState) (l₁ l₂ : List α) :
    process_batch p st (l₁ ++ l₂) = process_batch p (process_batch p st l₁) l₂ := by
  simp [process_batch, List.foldl_append]

theorem foldl_chunksAux (p : α → Bool) (n : Nat) (hn : n ≠ 0) :
    ∀ (fuel : Nat) (l : List α), l.length ≤ fuel → ∀ st : ProcState,
      (chunksAux n fuel l).foldl (fun s b => process_batch p s b) st = process_batch p st l := by
  intro fuel
  induction fuel with
  | zero =>
    intro l hl st
    have : l = [] := List.eq_nil_of_length_eq_zero (Nat.le_zero.mp hl)
    subst this
    simp [chunksAux, process_batch]
  | succ k ih =>
    intro l hl st
    cases l with
    | nil => simp [chunksAux, process_batch]
    | cons x xs =>
      have hn1 : 1 ≤ n := Nat.one_le_iff_ne_zero.mpr hn
      simp only [List.length_cons] at hl
      have hdrop : ((x :: xs).drop n).length ≤ k := by
        simp only [List.length_drop, List.length_cons]
        omega
      calc (chunksAux n (k + 1) (x :: xs)).foldl (fun s b => process_batch p s b) st
          = (chunksAux n k ((x :: xs).drop n)).foldl (fun s b => process_batch p s b)
              (process_batch p st ((x :: xs).take n)) := by
            simp [chunksAux]
        _ = process_batch p (process_batch p st ((x :: xs).take n)) ((x :: xs).drop n) :=
            ih _ hdrop _
        _ = process_batch p st ((x :: xs).take n ++ (x :: xs).drop n) :=
            (process_batch_append p st _ _).symm
        _ = process_batch p st (x :: xs) := by rw [List.take_append_drop]

/-- Full behaviour of a successful-fetch `process_all` run when the batch
size is positive: no exception propagates, each record bumps exactly one
counter, and only `start_time` is reset. -/
theorem process_all_ok_spec (p : α → Bool) (raw : List α) (now : Nat) (st : ProcState)
    (hbs : st.batch_size ≠ 0) :
    (process_all p (.ok raw) now st).2 = none ∧
    (process_all p (.ok raw) now st).1.processed_count
      = st.processed_count + raw.countP p ∧
    (process_all p (.ok raw) now st).1.error_count
      = st.error_count + raw.countP (fun r => !p r) ∧
    (process_all p (.ok raw) now st).1.start_time = some now ∧
    (process_all p (.ok raw) now st).1.batch_size = st.batch_size := by
  by_cases hraw : raw.isEmpty
  · have : raw = [] := by simpa [List.isEmpty_iff] using hraw
    subst this
    simp [process_all]
  · have hfold := foldl_chunksAux p st.batch_size hbs raw.length raw le_rfl
    have hraw' : raw.isEmpty = false := by simpa using hraw
    simp only [process_all, hraw', Bool.false_eq_true, if_false, toChunks, if_neg hbs]
    rw [hfold]
    simp [process_batch_processed, process_batch_error,
      process_batch_batch_size, process_batch_start_time]

theorem countP_add_countP_not (p : α → Bool) :
    ∀ l : List α, l.countP p + l.countP (fun r => !p r) = l.length := by
  intro l
  induction l with
  | nil => simp
  | cons x xs ih =>
    by_cases hx : p x <;> simp [List.countP_cons, hx] <;> omega

theorem findJob_setEnabled (jobs : List Job) (k : Nat) (b : Bool) :
    (setEnabled jobs k b).find? (fun j => j.id == k)
      = (jobs.find? (fun j => j.id == k)).map (fun j => { j with enabled := b }) := by
  induction jobs with
  | nil => rfl
  | cons j js ih =>
    simp only [setEnabled, List.map_cons]
    by_cases h : j.id = k
    · subst h
      simp [List.find?_cons]
    · have hb : (j.id == k) = false := by simp [h]
      simp only [List.find?_cons, hb, if_neg, Bool.false_eq_true, if_false]
      simpa [setEnabled, List.find?_cons, hb] using ih

theorem mem_updateExec {execs : List JobExecution} {k : Nat}
    {f : JobExecution → JobExecution} {r : JobExecution}
    (hr : r ∈ updateExec execs k f) :
    (∃ r0, r0 ∈ execs ∧ r = f r0) ∨ (r ∈ execs ∧ (r.id == k) = false) := by
  unfold updateExec at hr
  rcases List.mem_map.mp hr with ⟨r0, h0, heq⟩
  by_cases hid : (r0.id == k) = true
  · exact Or.inl ⟨r0, h0, by rw [← heq, if_pos hid]⟩
  · have hr0 : r = r0 := by rw [← heq, if_neg hid]
    subst hr0
    exact Or.inr ⟨h0, by simpa using hid⟩

theorem missing_isEmpty_false {c : DbConfig} {f : String}
    (hf : f ∈ required_fields) (hc : field_missing c f = true) :
    (missing_fields c).isEmpty = false := by
  have hmem : f ∈ missing_fields c := List.mem_filter.mpr ⟨hf, hc⟩
  cases hm : missing_fields c with
  | nil => rw [hm] at hmem; simp at hmem
  | cons a l => simp

theorem validate_error_of {raw svenn : DbConfig}
    (h : (missing_fields raw).isEmpty = false ∨ (missing_fields svenn).isEmpty = false) :
    validate_configs raw svenn = .error .valueError := by
  rcases h with h | h
  · simp [validate_configs, h]
  · by_cases hraw : (missing_fields raw).isEmpty <;> simp [validate_configs, hraw, h]

/-! ### Claim theorems: Batch Processing Framework and Connection Manager -/

/-- C3: a `process_all` run whose fetch returns `N` candidate records
increments exactly one of the two counters per record: the records whose
`process_record` raises are counted in `error_count`, the others in
`processed_count`, processed + errors = N, no per-record exception
propagates out of the run, and an empty candidate set returns
successfully. -/
theorem process_all_partial_failure_isolation {α : Type} (procOk : α → Bool)
    (raw : List α) (now bs : Nat) (hbs : bs ≠ 0) :
    (process_all procOk (Except.ok raw) now (ProcState.init bs)).2 = none ∧
    (process_all procOk (Except.ok raw) now (ProcState.init bs)).1.processed_count
      = raw.countP procOk ∧
    (process_all procOk (Except.ok raw) now (ProcState.init bs)).1.error_count
      = raw.countP (fun r => !procOk r) ∧
    (process_all procOk (Except.ok raw) now (ProcState.init bs)).1.processed_count
      + (process_all procOk (Except.ok raw) now (ProcState.init bs)).1.error_count
      = raw.length := by
  have hbs' : (ProcState.init bs).batch_size ≠ 0 := hbs
  obtain ⟨h1, h2, h3, _, _⟩ := process_all_ok_spec procOk raw now (ProcState.init bs) hbs'
  refine ⟨h1, ?_, ?_, ?_⟩
  · simpa [ProcState.init] using h2
  · simpa [ProcState.init] using h3
  · rw [h2, h3]
    simp only [ProcState.init, Nat.zero_add]
    exact countP_add_countP_not procOk raw

theorem process_all_partial_failure_isolation_witness :
    (100 : Nat) ≠ 0 ∧
    ((process_all (fun b : Bool => b) (Except.ok [true, false, true]) 7 (ProcState.init 100)).2 = none ∧
     (process_all (fun b : Bool => b) (Except.ok [true, false, true]) 7 (ProcState.init 100)).1.processed_count
       = ([true, false, true].countP (fun b : Bool => b)) ∧
     (process_all (fun b : Bool => b) (Except.ok [true, false, true]) 7 (ProcState.init 100)).1.error_count
       = ([true, false, true].countP (fun r : Bool => !r)) ∧
     (process_all (fun b : Bool => b) (Except.ok [true, false, true]) 7 (ProcState.init 100)).1.processed_count
       + (process_all (fun b : Bool => b) (Except.ok [true, false, true]) 7 (ProcState.init 100)).1.error_count
       = [true, false, true].length) :=
  ⟨by decide,
   process_all_partial_failure_isolation (fun b : Bool => b) [true, false, true] 7 100 (by decide)⟩

/-- C4 counterexample: on the same processor instance the counters are
NOT reset by `process_all`.  After a first run over one successfully
processed record, a second run over one successfully processed record
reports `processed_count = 2`, not the `1` record of the second
invocation alone. -/
theorem process_all_counters_not_reset :
    ¬ ((process_all (fun b : Bool => b) (Except.ok [true]) 1
          (process_all (fun b : Bool => b) (Except.ok [true]) 0 (ProcState.init 100)).1).1.processed_count
        = [true].countP (fun b : Bool => b)) := by
  decide

/-- C4 amended: the counters are initialized to zero at processor
construction, not at the start of each `process_all` invocation;
`process_all` resets only `start_time`.  A second invocation on the same
instance therefore reports the accumulated totals of both invocations
(so counts are fresh per processor instance, and fresh per invocation
only when each invocation uses a fresh instance). -/
theorem process_all_counts_accumulate {α : Type} (procOk : α → Bool)
    (raw1 raw2 : List α) (t1 t2 bs : Nat) (hbs : bs ≠ 0) :
    (ProcState.init bs).processed_count = 0 ∧
    (ProcState.init bs).error_count = 0 ∧
    (process_all procOk (Except.ok raw2) t2
        (process_all procOk (Except.ok raw1) t1 (ProcState.init bs)).1).1.processed_count
      = raw1.countP procOk + raw2.countP procOk ∧
    (process_all procOk (Except.ok raw2) t2
        (process_all procOk (Except.ok raw1) t1 (ProcState.init bs)).1).1.error_count
      = raw1.countP (fun r => !procOk r) + raw2.countP (fun r => !procOk r) ∧
    (process_all procOk (Except.ok raw2) t2
        (process_all procOk (Except.ok raw1) t1 (ProcState.init bs)).1).1.start_time
      = some t2 := by
  have hbs1 : (ProcState.init bs).batch_size ≠ 0 := hbs
  obtain ⟨_, h2, h3, _, h5⟩ := process_all_ok_spec procOk raw1 t1 (ProcState.init bs) hbs1
  have hbs2 : (process_all procOk (Except.ok raw1) t1 (ProcState.init bs)).1.batch_size ≠ 0 := by
    rw [h5]; exact hbs1
  obtain ⟨_, g2, g3, g4, _⟩ :=
    process_all_ok_spec procOk raw2 t2
      (process_all procOk (Except.ok raw1) t1 (ProcState.init bs)).1 hbs2
  refine ⟨rfl, rfl, ?_, ?_, g4⟩
  · rw [g2, h2]; simp [ProcState.init]
  · rw [g3, h3]; simp [ProcState.init]

theorem process_all_counts_accumulate_witness :
    (100 : Nat) ≠ 0 ∧
    ((ProcState.init 100).processed_count = 0 ∧
     (ProcState.init 100).error_count = 0 ∧
     (process_all (fun b : Bool => b) (Except.ok [true, false]) 1
         (process_all (fun b : Bool => b) (Except.ok [true]) 0 (ProcState.init 100)).1).1.processed_count
       = [true].countP (fun b : Bool => b) + [true, false].countP (fun b : Bool => b) ∧
     (process_all (fun b : Bool => b) (Except.ok [true, false]) 1
         (process_all (fun b : Bool => b) (Except.ok [true]) 0 (ProcState.init 100)).1).1.error_count
       = [true].countP (fun r : Bool => !r) + [true, false].countP (fun r : Bool => !r) ∧
     (process_all (fun b : Bool => b) (Except.ok [true, false]) 1
         (process_all (fun b : Bool => b) (Except.ok [true]) 0 (ProcState.init 100)).1).1.start_time
       = some 1) :=
  ⟨by decide,
   process_all_counts_accumulate (fun b : Bool => b) [true] [true, false] 0 1 100 (by decide)⟩

/-- C8: `get_cursor` commits the connection on scope exit exactly when
the body raised no error, rolls it back exactly when the body raised, and
re-raises the body's outcome unchanged; the decision is a function of the
body's outcome alone, never the caller's. -/
theorem get_cursor_commit_rollback {ε α : Type} (body : Except ε α) :
    (get_cursor body).1 = body ∧
    ((get_cursor body).2 = ConnAction.commit ↔ ∃ a, body = Except.ok a) ∧
    ((get_cursor body).2 = ConnAction.rollback ↔ ∃ e, body = Except.error e) := by
  cases body <;> simp [get_cursor]

theorem string_append_ne_empty (s t : String) (hs : s.data ≠ []) : s ++ t ≠ "" := by
  intro h
  apply hs
  cases s with
  | mk a =>
    cases t with
    | mk b =>
      have hd : a ++ b = [] := congrArg String.data h
      exact (List.append_eq_nil.mp hd).1

/-! ### Concrete states used by witnesses -/

def scriptPrices : Script := { id := 5, filename := "byggmakker/prices.py" }

def jobOne : Job :=
  { id := 1
    job_id := "script_5"
    script_id := 5
    cron_expression := "0 0 * * *"
    enabled := true }

def stScripts : SchedState :=
  { scripts := [scriptPrices], jobs := [], executions := [], registry := []
    nextJobRowId := 1, nextExecId := 1 }

def stWithJob : SchedState :=
  { scripts := [scriptPrices], jobs := [jobOne], executions := [], registry := []
    nextJobRowId := 2, nextExecId := 1 }

/-! ### Claim theorems: Job Scheduler -/

/-- C5: a cron expression that does not split into exactly five
whitespace-separated fields makes `add_job` fail with the cron
`ValueError`, with the state — job table and live trigger registry —
unchanged, whenever the script checks preceding the parse pass. -/
theorem add_job_invalid_cron_rejected (st : SchedState) (fs : List String)
    (script_id : Nat) (expr : String) (script : Script) (w f : String)
    (hscript : st.findScript script_id = some script)
    (hsplit : pySplitOn '/' script.filename = [w, f])
    (hfile : (w ++ "/" ++ f) ∈ fs)
    (hcron : (pySplitWhitespace expr).length ≠ 5) :
    add_job st fs script_id expr = (.error .invalidCron, st) := by
  have hparse := parse_cron_error_of_len_ne5 hcron
  simp [add_job, hscript, hsplit, hfile, hparse]

theorem add_job_invalid_cron_rejected_witness :
    stScripts.findScript 5 = some scriptPrices ∧
    pySplitOn '/' scriptPrices.filename = ["byggmakker", "prices.py"] ∧
    ("byggmakker" ++ "/" ++ "prices.py") ∈ ["byggmakker/prices.py"] ∧
    (pySplitWhitespace "0 0 * *").length ≠ 5 ∧
    add_job stScripts ["byggmakker/prices.py"] 5 "0 0 * *" = (.error .invalidCron, stScripts) :=
  ⟨by decide, by decide, by decide, by decide,
   add_job_invalid_cron_rejected stScripts ["byggmakker/prices.py"] 5 "0 0 * *"
     scriptPrices "byggmakker" "prices.py" (by decide) (by decide) (by decide) (by decide)⟩

/-- C6: `remove_job` raises its not-found error exactly when the job row
does not exist; on an existing row it succeeds — also when the live
trigger is absent from the registry, since the registry filter is a no-op
then — and deletes the persisted row (and the trigger when present). -/
theorem remove_job_not_found_iff (st : SchedState) (job_id : Nat) :
    ((remove_job st job_id).1 = .error .jobNotFound ↔ st.findJob job_id = none) ∧
    (∀ job, st.findJob job_id = some job →
      (remove_job st job_id).1 = .ok () ∧
      (remove_job st job_id).2.jobs = st.jobs.filter (fun j => j.id != job.id) ∧
      (remove_job st job_id).2.registry = st.registry.filter (fun t => t.id != job.job_id)) := by
  constructor
  · cases hj : st.findJob job_id <;> simp [remove_job, hj]
  · intro job hjob
    simp [remove_job, hjob]

theorem remove_job_not_found_iff_witness :
    stWithJob.findJob 1 = some jobOne ∧
    ((remove_job stWithJob 1).1 = .ok () ∧
     (remove_job stWithJob 1).2.jobs = stWithJob.jobs.filter (fun j => j.id != jobOne.id) ∧
     (remove_job stWithJob 1).2.registry
       = stWithJob.registry.filter (fun t => t.id != jobOne.job_id)) :=
  ⟨by decide, (remove_job_not_found_iff stWithJob 1).2 jobOne (by decide)⟩

theorem toggle_job_step (st : SchedState) (job_id : Nat) (job : Job)
    (hfind : st.findJob job_id = some job)
    (hcron : (pySplitWhitespace job.cron_expression).length = 5) :
    (toggle_job st job_id).1 = .ok (!job.enabled) ∧
    (toggle_job st job_id).2.findJob job_id = some { job with enabled := !job.enabled } := by
  have hset : ∀ b : Bool, (setEnabled st.jobs job_id b).find? (fun j => j.id == job_id)
      = some { job with enabled := b } := by
    intro b
    rw [findJob_setEnabled]
    rw [show st.jobs.find? (fun j => j.id == job_id) = some job from hfind]
    rfl
  by_cases he : job.enabled = true
  · constructor
    · simp only [toggle_job, hfind]
      simp [he]
    · simp only [toggle_job, hfind]
      simp [he, SchedState.findJob, hset]
  · have he' : job.enabled = false := by simpa using he
    cases ht : st.findTrigger job.job_id with
    | some t =>
      constructor
      · simp only [toggle_job, hfind]
        simp [he', ht]
      · simp only [toggle_job, hfind]
        simp [he', ht, SchedState.findJob, hset]
    | none =>
      obtain ⟨c, hc⟩ := parse_cron_ok_of_len5 hcron
      constructor
      · simp only [toggle_job, hfind]
        simp [he', ht, hc]
      · simp only [toggle_job, hfind]
        simp [he', ht, hc, SchedState.findJob, hset]

/-- C7: on an existing job (whose stored cron expression has the five
fields the scheduler's own invariant guarantees), `toggle_job` returns
the flipped enabled flag, the persisted flag equals the returned value
after each call, and a second `toggle_job` restores the original flag —
both when the live trigger is present and when it has to be recreated. -/
theorem toggle_job_double_toggle (st : SchedState) (job_id : Nat) (job : Job)
    (hfind : st.findJob job_id = some job)
    (hcron : (pySplitWhitespace job.cron_expression).length = 5) :
    (toggle_job st job_id).1 = .ok (!job.enabled) ∧
    ((toggle_job st job_id).2.findJob job_id).map (fun j => j.enabled)
      = some (!job.enabled) ∧
    (toggle_job (toggle_job st job_id).2 job_id).1 = .ok job.enabled ∧
    ((toggle_job (toggle_job st job_id).2 job_id).2.findJob job_id).map (fun j => j.enabled)
      = some job.enabled := by
  obtain ⟨h1, h2⟩ := toggle_job_step st job_id job hfind hcron
  have hcron2 :
      (pySplitWhitespace ({ job with enabled := !job.enabled } : Job).cron_expression).length
        = 5 := hcron
  obtain ⟨g1, g2⟩ := toggle_job_step _ job_id _ h2 hcron2
  refine ⟨h1, by simp [h2], ?_, ?_⟩
  · simpa [Bool.not_not] using g1
  · simp [g2, Bool.not_not]

theorem toggle_job_double_toggle_witness :
    stWithJob.findJob 1 = some jobOne ∧
    (pySplitWhitespace jobOne.cron_expression).length = 5 ∧
    ((toggle_job stWithJob 1).1 = .ok (!jobOne.enabled) ∧
     ((toggle_job stWithJob 1).2.findJob 1).map (fun j => j.enabled)
       = some (!jobOne.enabled) ∧
     (toggle_job (toggle_job stWithJob 1).2 1).1 = .ok jobOne.enabled ∧
     ((toggle_job (toggle_job stWithJob 1).2 1).2.findJob 1).map (fun j => j.enabled)
       = some jobOne.enabled) :=
  ⟨by decide, by decide,
   toggle_job_double_toggle stWithJob 1 jobOne (by decide) (by decide)⟩

/-- C10: on an existing job, `update_job` with the empty-string cron
expression behaves exactly like `update_job` with no expression — the
empty string is falsy, so no validation, no reschedule, no persisted
change: the call returns the current row and leaves the state intact. -/
theorem update_job_empty_string_noop (st : SchedState) (job_id : Nat) (job : Job)
    (hfind : st.findJob job_id = some job) :
    update_job st job_id (some "") = update_job st job_id none ∧
    update_job st job_id (some "") = (.ok job, st) := by
  simp [update_job, hfind, truthy]

theorem update_job_empty_string_noop_witness :
    stWithJob.findJob 1 = some jobOne ∧
    (update_job stWithJob 1 (some "") = update_job stWithJob 1 none ∧
     update_job stWithJob 1 (some "") = (.ok jobOne, stWithJob)) :=
  ⟨by decide, update_job_empty_string_noop stWithJob 1 jobOne (by decide)⟩

/-! ### Claim theorems: Execution Tracker -/

/-- C1: any execution record present after a run of `execute_script` that
was not already present before the run has a terminal status
(`completed` or `failed`) and a set `end_time`; a failed record carries a
non-empty error message; and whenever the body of the run raised — the
`.env` check, `DatabaseManager` construction, script import, the missing
`main()` check, or the script's own execution (which is where a raising
`fetchCandidates` surfaces) — the record's status is `failed`.  In
particular no record created by the run is left in status `running`. -/
theorem execute_script_record_terminal (st : SchedState) (env : ExecEnv)
    (now endNow : Nat) (job_id : Nat) (r : JobExecution)
    (hr : r ∈ (execute_script st env now endNow job_id).2.executions)
    (hnew : r ∉ st.executions) :
    (r.status = "completed" ∨ r.status = "failed") ∧
    r.end_time = some endNow ∧
    (r.status = "failed" → ∃ m, r.error_message = some m ∧ m ≠ "") ∧
    (runScriptBody env ≠ .ok () → r.status = "failed") := by
  cases hjob : st.findJob job_id with
  | none =>
    simp only [execute_script, hjob] at hr
    exact absurd hr hnew
  | some job =>
    cases hscript : st.findScript job.script_id with
    | none =>
      simp only [execute_script, hjob, hscript] at hr
      exact absurd hr hnew
    | some script =>
      rcases hparts : pySplitOn '/' script.filename with _ | ⟨a, _ | ⟨b, _ | ⟨c, rest⟩⟩⟩
      · simp only [execute_script, hjob, hscript, hparts] at hr
        exact absurd hr hnew
      · simp only [execute_script, hjob, hscript, hparts] at hr
        exact absurd hr hnew
      · cases hbody : runScriptBody env with
        | ok u =>
          cases u
          simp only [execute_script, hjob, hscript, hparts, hbody] at hr
          rcases mem_updateExec hr with ⟨r0, hr0, rfl⟩ | ⟨hmem, hid⟩
          · refine ⟨Or.inl rfl, rfl, ?_, ?_⟩
            · intro habs
              exact absurd (show ("completed" : String) = "failed" from habs) (by decide)
            · intro hne
              exact absurd rfl hne
          · rcases List.mem_append.mp hmem with h | h
            · exact absurd h hnew
            · have hrec := List.mem_singleton.mp h
              rw [hrec] at hid
              simp at hid
        | error e =>
          simp only [execute_script, hjob, hscript, hparts, hbody] at hr
          rcases mem_updateExec hr with ⟨r0, hr0, rfl⟩ | ⟨hmem, hid⟩
          · refine ⟨Or.inr rfl, rfl, fun _ => ?_, fun _ => rfl⟩
            exact ⟨"Script execution failed: " ++ errMsg e, rfl,
              string_append_ne_empty _ _ (by decide)⟩
          · rcases List.mem_append.mp hmem with h | h
            · exact absurd h hnew
            · have hrec := List.mem_singleton.mp h
              rw [hrec] at hid
              simp at hid
      · simp only [execute_script, hjob, hscript, hparts] at hr
        exact absurd hr hnew

theorem execute_script_record_terminal_witness :
    ({ id := 1, job_id := 1, start_time := 3, end_time := some 4, status := "failed",
       error_message := some "Script execution failed: error inside main()" } : JobExecution)
        ∈ (execute_script stWithJob
            { envExists := true, dbInitOk := true, importOk := true, hasMain := true,
              mainOk := false } 3 4 1).2.executions ∧
    ({ id := 1, job_id := 1, start_time := 3, end_time := some 4, status := "failed",
       error_message := some "Script execution failed: error inside main()" } : JobExecution)
        ∉ stWithJob.executions ∧
    ((("failed" : String) = "completed" ∨ ("failed" : String) = "failed") ∧
     (some 4 : Option Nat) = some 4 ∧
     (("failed" : String) = "failed" →
       ∃ m, (some "Script execution failed: error inside main()" : Option String) = some m ∧
         m ≠ "") ∧
     (runScriptBody
         { envExists := true, dbInitOk := true, importOk := true, hasMain := true,
           mainOk := false } ≠ .ok () → ("failed" : String) = "failed")) :=
  ⟨by decide, by decide,
   execute_script_record_terminal stWithJob
     { envExists := true, dbInitOk := true, importOk := true, hasMain := true, mainOk := false }
     3 4 1
     { id := 1, job_id := 1, start_time := 3, end_time := some 4, status := "failed",
       error_message := some "Script execution failed: error inside main()" }
     (by decide) (by decide)⟩

/-- C2 at the failing input: `add_job` for the script with id 5, in a
state whose next Job row id is 1, creates the JobDefinition with internal
id 1 but registers the live trigger with argument 5 — the script's id,
not the created job's internal id (which `execute_script`, and the
recreate paths of `toggle_job`/`update_job`, treat the argument as). -/
theorem add_job_trigger_arg_is_script_id :
    (add_job stScripts ["byggmakker/prices.py"] 5 "0 0 * * *").1
      = .ok { id := 1, job_id := "script_5", script_id := 5,
              cron_expression := "0 0 * * *", enabled := true } ∧
    ((add_job stScripts ["byggmakker/prices.py"] 5 "0 0 * * *").2.registry.map
        (fun t => t.arg)) = [5] ∧
    (1 : Nat) ≠ 5 :=
  ⟨rfl, rfl, by decide⟩

/-- C9: if any required connection parameter of either configured store
is missing from the environment, `DatabaseManager` construction
(`_initialize_configs` + `_validate_configs`) raises; hence construction
succeeds only when every required parameter of every store is present
(the required parameters being host, user, database name and port — the
set the code validates). -/
theorem initialize_configs_missing_env (env : String → Option String) (name : String)
    (h1 : name ∈ requiredEnvVars) (h2 : env name = none) :
    ∃ e, initialize_configs env = .error e := by
  rcases hp : pyInt (env "RAW_DB_PORT") with e | n
  · exact ⟨e, by simp [initialize_configs, hp]⟩
  · rcases hq : pyInt (env "SVENN_DB_PORT") with e | m
    · exact ⟨e, by simp [initialize_configs, hp, hq]⟩
    · refine ⟨.valueError, ?_⟩
      have hv : validate_configs (raw_config env n) (svenn_config env m)
          = .error .valueError := by
        simp only [requiredEnvVars] at h1
        fin_cases h1
        · exact validate_error_of (Or.inl (missing_isEmpty_false (f := "host") (by decide)
            (by simp [field_missing, raw_config, isFalsyStr, h2])))
        · exact validate_error_of (Or.inl (missing_isEmpty_false (f := "user") (by decide)
            (by simp [field_missing, raw_config, isFalsyStr, h2])))
        · exact validate_error_of (Or.inl (missing_isEmpty_false (f := "database") (by decide)
            (by simp [field_missing, raw_config, isFalsyStr, h2])))
        · rw [h2] at hp
          simp [pyInt] at hp
        · exact validate_error_of (Or.inr (missing_isEmpty_false (f := "host") (by decide)
            (by simp [field_missing, svenn_config, isFalsyStr, h2])))
        · exact validate_error_of (Or.inr (missing_isEmpty_false (f := "user") (by decide)
            (by simp [field_missing, svenn_config, isFalsyStr, h2])))
        · exact validate_error_of (Or.inr (missing_isEmpty_false (f := "database") (by decide)
            (by simp [field_missing, svenn_config, isFalsyStr, h2])))
        · rw [h2] at hq
          simp [pyInt] at hq
      simp [initialize_configs, hp, hq, hv]

theorem initialize_configs_missing_env_witness :
    ("RAW_DB_HOST" : String) ∈ requiredEnvVars ∧
    (fun (_ : String) => (none : Option String)) "RAW_DB_HOST" = none ∧
    ∃ e, initialize_configs (fun _ => none) = .error e :=
  ⟨by decide, rfl,
   initialize_configs_missing_env (fun _ => none) "RAW_DB_HOST" (by decide) rfl⟩

end Svenn
